import Mathlib

/-!
Verification development for the hook.io core (`src/lib/hookio/hook.js`):
a shallow embedding of the hook runtime's registry, naming, emit pipeline,
broadcast intercept and RPC handlers, together with theorems settling the
specification's claims against the code.
-/

namespace HookIO

/-- The fixed topic delimiter `DELIMITER = '::'` (hook.js line 18). -/
def DELIMITER : String := "::"

/-- Atomic JavaScript values, the possible elements of the (flat) arrays the
hook's code passes around: topic-segment arrays hold strings, listener arrays
hold opaque handler references (modelled as numbers). -/
inductive JSAtom where
  | astr : String → JSAtom
  | anum : Int → JSAtom
  | abool : Bool → JSAtom
  | anull : JSAtom
  | aundefined : JSAtom
deriving DecidableEq, Repr

/-- A small model of JavaScript runtime values, as far as the hook's code
inspects them (strings, flat arrays, booleans, numbers, `null`, `undefined`).
The arrays occurring in the code (split topic parts, listener lists) are flat,
so array elements are restricted to atoms. -/
inductive JSVal where
  | vstr : String → JSVal
  | vnum : Int → JSVal
  | vbool : Bool → JSVal
  | varr : List JSAtom → JSVal
  | vnull : JSVal
  | vundefined : JSVal
deriving DecidableEq, Repr

/-- JavaScript truthiness: `false`, `0`, the empty string, `null`, `undefined`
are falsy; every array (even the empty one) is truthy. -/
def truthy : JSVal → Bool
  | .vbool b => b
  | .vstr s => s ≠ ""
  | .vnum n => n ≠ 0
  | .vnull => false
  | .vundefined => false
  | .varr _ => true

/-- Embedding of JavaScript string split on the two-character delimiter
`'::'` (as in `event.split(DELIMITER)`), written on the character list so
that it is structurally recursive. -/
def splitChars : List Char → List (List Char)
  | [] => [[]]
  | ':' :: ':' :: rest => [] :: splitChars rest
  | c :: rest =>
    match splitChars rest with
    | [] => [[c]]
    | s :: ss => (c :: s) :: ss

/-- Split a topic string on the delimiter, as `event.split('::')` does. -/
def splitDelim (s : String) : List String :=
  (splitChars s.toList).map (fun cs => String.mk cs)

/-!
## Listener store (spec-modelled)

The wildcard emitter itself is the `eventemitter2` dependency, which is not
under `src/`; the spec treats it as part of the core, so its observable
behaviour is modelled from the spec here.
-/

/-- Modelled from the spec: the listener store of the embedded wildcard
event emitter (the eventemitter2 dependency, absent from `src/`). An entry
is a pattern (topic segments) together with an opaque listener reference;
`match` semantics follow the spec's rules in order: exact segment match,
a single `*` segment matches exactly one segment, a trailing `**` matches
zero or more trailing segments and terminates the pattern. The spec's
`listeners(pattern)` returns the sequence of matching listeners. -/
abbrev ListenerTree := List (List String × Nat)

/-- Modelled from the spec: does a listener pattern match a concrete list of
topic segments, honouring the single-segment wildcard and the trailing
multi-segment wildcard. -/
def patMatch : List String → List String → Bool
  | ["**"], _ => true
  | [], [] => true
  | p :: ps, t :: ts => (p == "*" || p == t) && patMatch ps ts
  | _, _ => false

/-- Modelled from the spec: `listeners(parts)` of the embedded emitter, the
sequence of listener references whose pattern matches the given segments. -/
def listeners (tree : ListenerTree) (parts : List String) : List Nat :=
  (tree.filter (fun e => patMatch e.1 parts)).map (fun e => e.2)

/-- Topic-segment extraction from an array element; the claims only exercise
string segments, and a non-string segment never equals a stored string key. -/
def segOf : JSAtom → String
  | .astr s => s
  | _ => ""

/-- Embedding of `Hook.prototype.hasEvent` (hook.js lines 731-736): an
argument that is neither a string nor an array yields `false`; otherwise the
hook returns `this.listeners(parts)`, an array of the matching listeners.
A string argument is split on the delimiter by the emitter's lookup. -/
def hasEvent (tree : ListenerTree) (parts : JSVal) : JSVal :=
  match parts with
  | .vstr s => .varr ((listeners tree (splitDelim s)).map (fun i => .anum (Int.ofNat i)))
  | .varr xs => .varr ((listeners tree (xs.map segOf)).map (fun i => .anum (Int.ofNat i)))
  | _ => .vbool false

/-!
## Registry: per-peer subscription counts

`self._names` maps a peer name to its record; only the `events` field (a
JavaScript object used as a multiset of topic strings) matters for the
claims, so a registry is an association list from peer name to that field.
-/

/-- The `events` object of a registry entry: topic string to listener count,
as a key-unique association list (a JavaScript object). -/
abbrev Events := List (String × Nat)

/-- Reading `events[data]` with JavaScript coercion: an absent key reads as
`undefined`, which behaves like `0` under the truthiness tests the code uses. -/
def evGet (es : Events) (k : String) : Nat :=
  (es.lookup k).getD 0

/-- Assignment `events[data] = v` on a JavaScript object. -/
def evSet : Events → String → Nat → Events
  | [], k, v => [(k, v)]
  | (k', v') :: rest, k, v =>
    if k' = k then (k, v) :: rest else (k', v') :: evSet rest k v

/-- Deletion `delete events[data]` on a JavaScript object. -/
def evDel : Events → String → Events
  | [], _ => []
  | (k', v') :: rest, k =>
    if k' = k then rest else (k', v') :: evDel rest k

/-- Embedding of `_addOrRemoveEvent(clientName, event, data)` restricted to
one entry's `events` object (hook.js lines 398-414). `newListener`
increments the count; `removeListener` decrements a truthy count and deletes
the key when it reaches zero; `removeAllListeners` deletes the key; any
other event name leaves the object untouched and returns `false`. -/
def addOrRemoveEvent (es : Events) (event dat : String) : Events × Bool :=
  if event = "newListener" then
    (evSet es dat (evGet es dat + 1), true)
  else if event = "removeListener" then
    if evGet es dat ≠ 0 then
      if evGet es dat - 1 = 0 then (evDel es dat, true)
      else (evSet es dat (evGet es dat - 1), true)
    else (es, true)
  else if event = "removeAllListeners" then
    (evDel es dat, true)
  else (es, false)

/-- The server-side registry `self._names`, reduced to each entry's `events`
object, keyed by peer name. -/
abbrev Registry := List (String × Events)

/-- Registry lookup by peer name. -/
def regLookup (reg : Registry) (n : String) : Option Events :=
  reg.lookup n

/-- In-place mutation of one peer's `events` object, as the JavaScript code
does through the shared reference `self._names[clientName].events`. -/
def regUpdate (reg : Registry) (n : String) (es : Events) : Registry :=
  reg.map (fun p => if p.1 = n then (n, es) else p)

/-!
## Server message handler and the meta-event path of emit
-/

/-- An observable action of the server's `message` handler. -/
inductive MsgAction where
  | emitEvent : String → String → MsgAction
deriving DecidableEq, Repr

/-- Embedding of the server connection's `message` handler (hook.js lines
486-493): first `_addOrRemoveEvent(client.name, event, data)`; when that
returns `true` the handler returns at once, otherwise it re-emits the event
on the server. `none` models the JavaScript TypeError raised when the client
name is absent from `self._names`. -/
def serverMessage (reg : Registry) (clientName event dat : String) :
    Option (Registry × List MsgAction) :=
  match regLookup reg clientName with
  | none => none
  | some es =>
    let r := addOrRemoveEvent es event dat
    if r.2 then some (regUpdate reg clientName r.1, [])
    else some (reg, [MsgAction.emitEvent event dat])

/-- The event name that `Hook.prototype.removeAllListeners` emits, verbatim
from hook.js line 745. -/
def removeAllListenersEvent : String := "remoteAllListeners"

/-- The reserved meta-event names tested at the top of `Hook.prototype.emit`,
verbatim from hook.js line 182. -/
def reservedMetaEvents : List String :=
  ["newListener", "removeListener", "remoteAllListeners"]

/-- Embedding of the reserved branch of `Hook.prototype.emit` on a hook that
has `self.server` set (hook.js lines 182-191): a reserved meta event is fed
to `_addOrRemoveEvent(self.name, event, data)`; any other event leaves the
registry untouched. `none` models the TypeError when `self.name` is absent. -/
def serverEmitMeta (reg : Registry) (selfName event dat : String) :
    Option Registry :=
  if event ∈ reservedMetaEvents then
    match regLookup reg selfName with
    | none => none
    | some es => some (regUpdate reg selfName (addOrRemoveEvent es event dat).1)
  else some reg

/-- End-to-end registry effect at the broker when a connected client calls
`removeAllListeners(pattern)`: the client emits `removeAllListenersEvent`,
the reserved branch of `emit` forwards it through `remote.message` to the
broker, whose `message` handler runs, and any event the handler re-emits on
the broker goes through the broker's own reserved branch of `emit`. -/
def clientRemoveAllAtBroker (reg : Registry) (clientName selfName pattern : String) :
    Option Registry :=
  match serverMessage reg clientName removeAllListenersEvent pattern with
  | none => none
  | some (reg1, acts) =>
    acts.foldlM
      (fun r a => match a with
        | MsgAction.emitEvent e d => serverEmitMeta r selfName e d)
      reg1

/-- Registry effect when the broker itself calls `removeAllListeners(pattern)`:
its `emit` of `removeAllListenersEvent` takes the reserved branch with
`self.server` set. -/
def brokerRemoveAllSelf (reg : Registry) (selfName pattern : String) :
    Option Registry :=
  serverEmitMeta reg selfName removeAllListenersEvent pattern

/-!
## The broadcast intercept (broker side, per connected client)
-/

/-- An observable action of the broadcast intercept towards one client. -/
inductive BAction where
  | hasEventCall : List String → BAction
  | auxMessage : Nat → String → BAction
  | messageCall : String → BAction
deriving DecidableEq, Repr

/-- Qualification of a locally-originated event inside the intercept: a
single-segment topic gets the broker's name and the delimiter prepended. -/
def qualifyEvent (selfName event : String) : String :=
  if (splitDelim event).length = 1 then selfName ++ DELIMITER ++ event else event

/-- Embedding of the `onAny` broadcast intercept installed for one connected
client (hook.js lines 503-556). `clientHasMessage` is the truthiness of
`client.message`; `transports` are the registered auxiliary transports
(opaque ids); `reply` is the value the client's `hasEvent` passed to the
reply callback. The intercept does nothing when the topic's first segment is
the client's own name; otherwise it asks the client via `hasEvent` and,
unless the reply is falsy, sends the event to each auxiliary transport and
then to the client's `message`. -/
def broadcastIntercept (selfName clientName : String) (clientHasMessage : Bool)
    (transports : List Nat) (event : String) (reply : JSVal) : List BAction :=
  if clientHasMessage && ((splitDelim event).headD "" != clientName) then
    BAction.hasEventCall (splitDelim event) ::
      (if truthy reply then
        transports.map (fun t => BAction.auxMessage t (qualifyEvent selfName event)) ++
          [BAction.messageCall (qualifyEvent selfName event)]
      else [])
  else []

/-!
## Client naming: checkName
-/

/-- A candidate name is usable when it is neither a key of `self._names`
nor the server's own name (the test on hook.js line 458). -/
def freeName (names : List String) (selfName c : String) : Prop :=
  c ∉ names ∧ c ≠ selfName

instance (names : List String) (selfName c : String) :
    Decidable (freeName names selfName c) :=
  inferInstanceAs (Decidable (_ ∧ _))

/-- The candidate `_name` computed by `checkName` from the `id` argument:
the requested name when `id` is `undefined`, else `name + '-' + id`. -/
def candidate (name : String) : Option Nat → String
  | none => name
  | some i => name ++ "-" ++ Nat.repr i

/-- The `id` value passed to the recursive `checkName` call: `0` when `id`
was `undefined`, else `id + 1` (the post-increment on hook.js line 452). -/
def nextId : Option Nat → Nat
  | none => 0
  | some i => i + 1

/-- Embedding of the recursive `checkName(name, id)` of the server's `report`
handler (hook.js lines 446-464), with explicit fuel for the unbounded
JavaScript recursion. The first call passes no `id` (the candidate is the
requested name itself); afterwards the candidate is `name + '-' + id` with
`id` counting up from `0`. The first candidate that is free is returned. -/
def checkName (names : List String) (selfName name : String) :
    Option Nat → Nat → Option String
  | _, 0 => none
  | id, fuel + 1 =>
    if freeName names selfName (candidate name id) then some (candidate name id)
    else checkName names selfName name (some (nextId id)) fuel

/-- The sequence of candidate names `checkName` tries, in order: the
requested name itself, then `name-0`, `name-1`, and so on. -/
def candSeq (name : String) : Nat → String
  | 0 => name
  | k + 1 => name ++ "-" ++ Nat.repr k

/-!
## Emit: callback currying and the synthesized callback
-/

/-- The `data` argument of `emit` as the currying code inspects it: an
opaque non-callable payload, a callable, or `null`. -/
inductive DataArg where
  | value : String → DataArg
  | func : Nat → DataArg
  | null : DataArg
deriving DecidableEq, Repr

/-- Which callback the emit pipeline ends up using. -/
inductive CallbackKind where
  | user : Nat → CallbackKind
  | synthesized : CallbackKind
deriving DecidableEq, Repr

/-- Embedding of the argument currying in `Hook.prototype.emit` (hook.js
lines 203-236): a callable `data` becomes the callback with `data := null`;
otherwise a supplied callback is used; otherwise a callback is synthesized. -/
def normalizeEmitArgs (dat : DataArg) (cb : Option Nat) : DataArg × CallbackKind :=
  match dat with
  | .func f => (DataArg.null, CallbackKind.user f)
  | d =>
    match cb with
    | some f => (d, CallbackKind.user f)
    | none => (d, CallbackKind.synthesized)

/-- A JavaScript object handed to a callback (an error or a result), with an
opaque payload and the `ctx` property the synthesized callback assigns. -/
structure CbObj where
  payload : String
  ctx : Option DataArg := none
deriving DecidableEq, Repr

/-- The single event an invocation of the synthesized callback emits. -/
inductive EmitOut where
  | emit : String → CbObj → EmitOut
deriving DecidableEq, Repr

/-- Embedding of the synthesized per-emit callback (hook.js lines 222-235):
on a truthy error it sets `err.ctx` to the original data and emits
`event + '::error'` with the error; otherwise it sets `result.ctx` and emits
`event + '::result'` with the result. -/
def synthCallback (event : String) (dat : DataArg) (err : Option CbObj)
    (result : CbObj) : EmitOut :=
  match err with
  | some e => EmitOut.emit (event ++ DELIMITER ++ "error") { e with ctx := some dat }
  | none => EmitOut.emit (event ++ DELIMITER ++ "result") { result with ctx := some dat }

/-!
## Connect: version check and lifecycle emissions
-/

/-- A semantic version, as `semver` compares the `pkginfo.version` strings
of this code base (plain major.minor.patch versions). -/
structure SemVer where
  major : Nat
  minor : Nat
  patch : Nat
deriving DecidableEq, Repr

/-- Rendering of a semantic version, for the thrown error message. -/
def verStr (v : SemVer) : String :=
  Nat.repr v.major ++ "." ++ Nat.repr v.minor ++ "." ++ Nat.repr v.patch

/-- The `semver.neq` test used by `checkVersion`: strict semantic-version
inequality. -/
def semverNeq (a b : SemVer) : Bool :=
  a != b

/-- State of the connecting hook visible to the `report` reply handler. -/
structure ConnState where
  name : String
  id : Nat
  emitted : List String
deriving DecidableEq, Repr

/-- Embedding of the `remote.report` reply handler in
`Hook.prototype.connect` (hook.js lines 663-689): adopt the assigned name
and id, then `checkVersion` throws on strict semver inequality, and only
past that are `hook::connected` and `hook::started` emitted in this order. -/
def reportReply (st : ConnState) (newName : String) (newID : Nat)
    (serverVer selfVer : SemVer) : Except String ConnState :=
  let st1 : ConnState := { st with name := newName, id := newID }
  if semverNeq serverVer selfVer then
    Except.error ("remote.version=" ++ verStr serverVer ++
      " !== self.pkginfo.version=" ++ verStr selfVer)
  else
    Except.ok { st1 with emitted := st1.emitted ++ ["hook::connected", "hook::started"] }

/-!
## Start: listen with fallback to connect
-/

/-- A listen error as `start` inspects it: an object with a `code` field. -/
structure JsError where
  code : String
deriving DecidableEq, Repr

/-- An observable action of `Hook.prototype.start`. -/
inductive StartAction where
  | listenCall : Nat → StartAction
  | connectCall : Nat → StartAction
  | callbackCall : Option JsError → StartAction
deriving DecidableEq, Repr

/-- Embedding of `Hook.prototype.start` (hook.js lines 271-292) as a
function of the outcome `listen` reports to its continuation. Options are
an opaque id threaded to `listen` and, on the address-in-use fallback, to
`connect`; `hasCallback` records whether a callback was supplied; on any
other outcome the callback, when present, receives `listen`'s arguments. -/
def startFlow (optionsId : Nat) (hasCallback : Bool) (listenErr : Option JsError) :
    List StartAction :=
  StartAction.listenCall optionsId ::
    (match listenErr with
     | some e =>
       if e.code = "EADDRINUSE" then [StartAction.connectCall optionsId]
       else if hasCallback then [StartAction.callbackCall (some e)] else []
     | none => if hasCallback then [StartAction.callbackCall none] else [])

/-!
## Theorems
-/

/-- C1: the claim says that after `removeAllListeners(pattern)` the broker's
registry entry for the peer has the pattern's subscription key deleted. The
code does not do this: `Hook.prototype.removeAllListeners` emits the
misspelled event `'remoteAllListeners'`, which `_addOrRemoveEvent` does not
recognise (its `'removeAllListeners'` case, which would delete the key, is
unreachable), so the key survives on both the client-driven path and the
broker's own path. The first two conjuncts evaluate both flows at a concrete
failing input; the third shows that the registry operation with kind
removeAll would indeed delete the key; the fourth exhibits the misspelling. -/
theorem removeAllListeners_leaves_registry_key :
    clientRemoveAllAtBroker [("c", [("foo", 1)]), ("srv", [])] "c" "srv" "foo" =
      some [("c", [("foo", 1)]), ("srv", [])] ∧
    brokerRemoveAllSelf [("srv", [("foo", 2)])] "srv" "foo" =
      some [("srv", [("foo", 2)])] ∧
    (addOrRemoveEvent [("foo", 1)] "removeAllListeners" "foo").1 = [] ∧
    removeAllListenersEvent ≠ "removeAllListeners" := by
  decide

/-- C4: the claim says the broker never invokes a client's `message` for a
topic the client has no listener for. The code violates this: the client's
`hasEvent` replies with the listener array, which is the empty array when
nothing matches, and an empty array is truthy, so the `!send` guard does not
stop the broadcast. At the concrete input below the client has no listeners
at all, yet `messageCall` is among the intercept's actions. -/
theorem broadcast_message_sent_without_matching_listener :
    listeners ([] : ListenerTree) (splitDelim "other::foo") = [] ∧
    BAction.messageCall "other::foo" ∈
      broadcastIntercept "srv" "c" true [] "other::foo"
        (hasEvent ([] : ListenerTree)
          (JSVal.varr ((splitDelim "other::foo").map JSAtom.astr))) := by
  decide

/-- C5: echo suppression. When the first delimiter-separated segment of the
emitted topic equals the connected client's registered name, the broadcast
intercept performs no action towards that client at all; in particular its
`message` method is never invoked for that event. -/
theorem broadcast_suppresses_echo_to_origin
    (selfName clientName : String) (hm : Bool) (ts : List Nat)
    (event : String) (reply : JSVal)
    (h : (splitDelim event).headD "" = clientName) :
    broadcastIntercept selfName clientName hm ts event reply = [] := by
  unfold broadcastIntercept
  rw [h]
  simp

/-- Witness for `broadcast_suppresses_echo_to_origin` at a concrete input. -/
theorem broadcast_suppresses_echo_to_origin_witness :
    broadcastIntercept "srv" "c" true [0] "c::x" (JSVal.vbool true) = [] :=
  broadcast_suppresses_echo_to_origin "srv" "c" true [0] "c::x" (JSVal.vbool true)
    (by decide)

/-- C9: an argument to `Hook.prototype.hasEvent` that is neither a string
nor an array yields `false` for every listener tree, so the tree is never
consulted and a malformed request gets a definite negative answer. -/
theorem hasEvent_malformed_parts_false (tree : ListenerTree) (parts : JSVal)
    (hs : ∀ s, parts ≠ JSVal.vstr s) (ha : ∀ xs, parts ≠ JSVal.varr xs) :
    hasEvent tree parts = JSVal.vbool false := by
  cases parts with
  | vstr s => exact absurd rfl (hs s)
  | varr xs => exact absurd rfl (ha xs)
  | vnum n => rfl
  | vbool b => rfl
  | vnull => rfl
  | vundefined => rfl

/-- Witness for `hasEvent_malformed_parts_false` at a concrete input. -/
theorem hasEvent_malformed_parts_false_witness :
    hasEvent [(["a"], 1)] JSVal.vnull = JSVal.vbool false :=
  hasEvent_malformed_parts_false [(["a"], 1)] JSVal.vnull
    (fun _ h => JSVal.noConfusion h) (fun _ h => JSVal.noConfusion h)

/-- C3: for `emit(T, d)` with no callback argument and `d` not callable, a
callback is synthesized; each invocation of it emits exactly one event, which
is `T::error` carrying `d` in the error's `ctx` field exactly when an error
was reported, and otherwise `T::result` carrying `d` in the result's `ctx`
field; the two topics are distinct, so never both. -/
theorem synthesized_callback_exactly_one_event (event d : String)
    (err : Option CbObj) (result : CbObj) :
    normalizeEmitArgs (DataArg.value d) none =
      (DataArg.value d, CallbackKind.synthesized) ∧
    (err = none →
      synthCallback event (DataArg.value d) err result =
        EmitOut.emit (event ++ DELIMITER ++ "result")
          { result with ctx := some (DataArg.value d) }) ∧
    (∀ e, err = some e →
      synthCallback event (DataArg.value d) err result =
        EmitOut.emit (event ++ DELIMITER ++ "error")
          { e with ctx := some (DataArg.value d) }) ∧
    event ++ DELIMITER ++ "result" ≠ event ++ DELIMITER ++ "error" := by
  refine ⟨rfl, ?_, ?_, ?_⟩
  · rintro rfl; rfl
  · rintro e rfl; rfl
  · intro h
    have hlen := congrArg String.length h
    have h1 : ("result" : String).length = 6 := rfl
    have h2 : ("error" : String).length = 5 := rfl
    simp only [String.length_append, h1, h2] at hlen
    omega

/-- Witness for `synthesized_callback_exactly_one_event`, evaluating the
success path of the synthesized callback at a concrete input. -/
theorem synthesized_callback_exactly_one_event_witness :
    synthCallback "job" (DataArg.value "d") none { payload := "res", ctx := none } =
      EmitOut.emit ("job" ++ DELIMITER ++ "result")
        { payload := "res", ctx := some (DataArg.value "d") } :=
  (synthesized_callback_exactly_one_event "job" "d" none
    { payload := "res", ctx := none }).2.1 rfl

/-- C7: the `report` reply handler fails with the version-mismatch error and
emits nothing (in particular no `hook::connected`) exactly when the server's
version differs from the hook's own, and on equal versions emits
`hook::connected` then `hook::started`, in that order. -/
theorem connect_version_check_gates_connected (st : ConnState)
    (newName : String) (newID : Nat) (sv cv : SemVer) :
    (sv ≠ cv → reportReply st newName newID sv cv =
      Except.error ("remote.version=" ++ verStr sv ++
        " !== self.pkginfo.version=" ++ verStr cv)) ∧
    (sv = cv → reportReply st newName newID sv cv =
      Except.ok { name := newName
                , id := newID
                , emitted := st.emitted ++ ["hook::connected", "hook::started"] }) := by
  constructor
  · intro h
    have hb : semverNeq sv cv = true := by
      simp [semverNeq, bne_iff_ne, h]
    simp [reportReply, hb]
  · intro h
    have hb : semverNeq sv cv = false := by
      simp [semverNeq, h]
    simp [reportReply, hb]

/-- Witness for `connect_version_check_gates_connected`: version `1.2.3`
against `1.2.4` fails without emissions, and `1.2.3` against itself emits
`hook::connected` then `hook::started`. -/
theorem connect_version_check_gates_connected_witness :
    reportReply { name := "n", id := 0, emitted := [] } "m" 1
        { major := 1, minor := 2, patch := 3 } { major := 1, minor := 2, patch := 4 } =
      Except.error ("remote.version=" ++ verStr { major := 1, minor := 2, patch := 3 } ++
        " !== self.pkginfo.version=" ++ verStr { major := 1, minor := 2, patch := 4 }) ∧
    reportReply { name := "n", id := 0, emitted := [] } "m" 1
        { major := 1, minor := 2, patch := 3 } { major := 1, minor := 2, patch := 3 } =
      Except.ok { name := "m"
                , id := 1
                , emitted := ([] : List String) ++ ["hook::connected", "hook::started"] } :=
  ⟨(connect_version_check_gates_connected { name := "n", id := 0, emitted := [] }
      "m" 1 { major := 1, minor := 2, patch := 3 } { major := 1, minor := 2, patch := 4 }).1
      (by decide),
   (connect_version_check_gates_connected { name := "n", id := 0, emitted := [] }
      "m" 1 { major := 1, minor := 2, patch := 3 } { major := 1, minor := 2, patch := 3 }).2
      rfl⟩

/-- C8: `start` first attempts `listen`; it calls `connect` if and only if
`listen` reported an error with code `EADDRINUSE`, and then with the same
options; any other listen error is reported through the callback when one
was provided. -/
theorem start_falls_back_to_connect_iff_addr_in_use (o : Nat) (hb : Bool)
    (le : Option JsError) :
    (startFlow o hb le).head? = some (StartAction.listenCall o) ∧
    (StartAction.connectCall o ∈ startFlow o hb le ↔
      ∃ e, le = some e ∧ e.code = "EADDRINUSE") ∧
    (∀ e, le = some e → e.code ≠ "EADDRINUSE" → hb = true →
      StartAction.callbackCall (some e) ∈ startFlow o hb le) ∧
    (∀ o', StartAction.connectCall o' ∈ startFlow o hb le → o' = o) := by
  refine ⟨rfl, ?_, ?_, ?_⟩
  · cases le with
    | none => cases hb <;> simp [startFlow]
    | some e =>
      by_cases hc : e.code = "EADDRINUSE" <;>
        cases hb <;> simp [startFlow, hc]
  · rintro e rfl hc rfl
    simp [startFlow, hc]
  · intro o' hmem
    cases le with
    | none => cases hb <;> simp [startFlow] at hmem
    | some e =>
      by_cases hc : e.code = "EADDRINUSE" <;>
        cases hb <;> simp [startFlow, hc] at hmem <;> omega

/-- Witness for `start_falls_back_to_connect_iff_addr_in_use`: an
address-in-use error triggers `connect`, and a different error reaches the
callback. -/
theorem start_falls_back_to_connect_iff_addr_in_use_witness :
    StartAction.connectCall 7 ∈ startFlow 7 true (some { code := "EADDRINUSE" }) ∧
    StartAction.callbackCall (some { code := "EACCES" }) ∈
      startFlow 7 true (some { code := "EACCES" }) :=
  ⟨(start_falls_back_to_connect_iff_addr_in_use 7 true
      (some { code := "EADDRINUSE" })).2.1.mpr ⟨{ code := "EADDRINUSE" }, rfl, rfl⟩,
   (start_falls_back_to_connect_iff_addr_in_use 7 true
      (some { code := "EACCES" })).2.2.1 { code := "EACCES" } rfl (by decide) rfl⟩

/-- Helper for C2: any result of `checkName` called with a defined `id`
is the first free suffixed candidate at an index at least `id`, with every
earlier suffixed candidate from `id` on blocked. -/
theorem checkName_suffix_spec (names : List String) (selfName name : String) :
    ∀ fuel i r, checkName names selfName name (some i) fuel = some r →
      ∃ k, i ≤ k ∧ r = name ++ "-" ++ Nat.repr k ∧
        freeName names selfName r ∧
        ∀ j, i ≤ j → j < k →
          ¬ freeName names selfName (name ++ "-" ++ Nat.repr j) := by
  intro fuel
  induction fuel with
  | zero =>
    intro i r h
    exact absurd h (by simp [checkName])
  | succ fuel ih =>
    intro i r h
    unfold checkName at h
    by_cases hfree : freeName names selfName (candidate name (some i))
    · rw [if_pos hfree] at h
      obtain rfl : candidate name (some i) = r := by injection h
      exact ⟨i, le_refl i, rfl, hfree, fun j h1 h2 => absurd h1 (by omega)⟩
    · rw [if_neg hfree] at h
      simp only [nextId] at h
      obtain ⟨k, hk1, hk2, hk3, hk4⟩ := ih (i + 1) r h
      refine ⟨k, by omega, hk2, hk3, ?_⟩
      intro j h1 h2
      rcases Nat.eq_or_lt_of_le h1 with h1 | h1
      · subst h1
        simpa [candidate] using hfree
      · exact hk4 j h1 h2

/-- C2: whatever name `checkName` assigns is neither already in the registry
nor the server's own name (so registry names stay unique and the server's
name is never assigned), and it is the first free entry of the candidate
sequence: the requested name itself, then `name-0`, `name-1`, and so on,
every earlier candidate being either present in the registry or equal to
the server's own name. -/
theorem checkName_assigns_first_free_candidate
    (names : List String) (selfName name : String) (fuel : Nat) (r : String)
    (h : checkName names selfName name none fuel = some r) :
    r ∉ names ∧ r ≠ selfName ∧
    ∃ k, r = candSeq name k ∧
      ∀ j, j < k → ¬ freeName names selfName (candSeq name j) := by
  cases fuel with
  | zero => exact absurd h (by simp [checkName])
  | succ fuel =>
    unfold checkName at h
    by_cases hfree : freeName names selfName (candidate name none)
    · rw [if_pos hfree] at h
      obtain rfl : candidate name none = r := by injection h
      exact ⟨hfree.1, hfree.2, 0, rfl, fun j hj => absurd hj (by omega)⟩
    · rw [if_neg hfree] at h
      simp only [nextId] at h
      obtain ⟨k, _, hk2, hk3, hk4⟩ :=
        checkName_suffix_spec names selfName name fuel 0 r h
      refine ⟨hk3.1, hk3.2, k + 1, by simpa [candSeq] using hk2, ?_⟩
      intro j hj
      cases j with
      | zero => simpa [candSeq, candidate] using hfree
      | succ j' =>
        have hj' : j' < k := by omega
        simpa [candSeq] using hk4 j' (Nat.zero_le j') hj'

/-- Witness for `checkName_assigns_first_free_candidate`: with registry
names `worker` and `srv` and server name `srv`, the request `worker`
is assigned `worker-0`, which is fresh and not the server's name. -/
theorem checkName_assigns_first_free_candidate_witness :
    "worker-0" ∉ ["worker", "srv"] ∧ "worker-0" ≠ "srv" :=
  ⟨(checkName_assigns_first_free_candidate ["worker", "srv"] "srv" "worker" 5
      "worker-0" (by decide)).1,
   (checkName_assigns_first_free_candidate ["worker", "srv"] "srv" "worker" 5
      "worker-0" (by decide)).2.1⟩

/-- Helper for C6: the matching-listener sequence is nonempty exactly when
some stored pattern matches the topic segments. -/
theorem listeners_ne_nil_iff (tree : ListenerTree) (parts : List String) :
    listeners tree parts ≠ [] ↔ ∃ e ∈ tree, patMatch e.1 parts = true := by
  rw [listeners, ne_eq, List.map_eq_nil_iff, List.filter_eq_nil_iff]
  push_neg
  simp

/-- C6-counterexample: the claim says the `hasEvent` reply's second argument
is a boolean. At the concrete input of a hook with no listeners asked about
`foo`, the reply is the empty array, which is not a boolean (and is truthy,
so it does not even state non-matching by JavaScript coercion). -/
theorem hasEvent_reply_is_not_boolean :
    hasEvent ([] : ListenerTree) (JSVal.vstr "foo") = JSVal.varr [] ∧
    JSVal.varr [] ≠ JSVal.vbool true ∧
    JSVal.varr [] ≠ JSVal.vbool false ∧
    truthy (JSVal.varr []) = true := by
  decide

/-- C6-amended: the reply's second argument is `false` when `topicParts` is
neither a string nor an array, and otherwise it is the array of this hook's
listeners matching `topicParts`, which is nonempty exactly when the hook has
a matching listener. -/
theorem hasEvent_reply_is_matching_listener_array (tree : ListenerTree)
    (s : String) (xs : List JSAtom) :
    hasEvent tree (JSVal.vstr s) =
      JSVal.varr ((listeners tree (splitDelim s)).map
        (fun i => JSAtom.anum (Int.ofNat i))) ∧
    (listeners tree (splitDelim s) ≠ [] ↔
      ∃ e ∈ tree, patMatch e.1 (splitDelim s) = true) ∧
    hasEvent tree (JSVal.varr xs) =
      JSVal.varr ((listeners tree (xs.map segOf)).map
        (fun i => JSAtom.anum (Int.ofNat i))) ∧
    (listeners tree (xs.map segOf) ≠ [] ↔
      ∃ e ∈ tree, patMatch e.1 (xs.map segOf) = true) :=
  ⟨rfl, listeners_ne_nil_iff tree (splitDelim s), rfl,
    listeners_ne_nil_iff tree (xs.map segOf)⟩

/-- Helper: association-list lookup skips a head whose key differs. -/
theorem lookup_cons_beq_false {β : Type} (n a : String) (b : β)
    (t : List (String × β)) (h : (n == a) = false) :
    List.lookup n ((a, b) :: t) = List.lookup n t := by
  simp [List.lookup, h]

/-- Helper: association-list lookup stops at a head whose key matches. -/
theorem lookup_cons_beq_true {β : Type} (n a : String) (b : β)
    (t : List (String × β)) (h : (n == a) = true) :
    List.lookup n ((a, b) :: t) = some b := by
  simp [List.lookup, h]

/-- Helper: `regUpdate` unfolded one entry at a time. -/
theorem regUpdate_cons (a : String) (b : Events) (rest : Registry)
    (k : String) (es : Events) :
    regUpdate ((a, b) :: rest) k es =
      (if a = k then (k, es) else (a, b)) :: regUpdate rest k es := rfl

/-- Helper for C10: updating one registry entry leaves the lookup of every
other name unchanged. -/
theorem regLookup_regUpdate_ne (reg : Registry) (k n : String) (es : Events)
    (h : n ≠ k) : regLookup (regUpdate reg k es) n = regLookup reg n := by
  induction reg with
  | nil => rfl
  | cons p rest ih =>
    obtain ⟨a, b⟩ := p
    show List.lookup n (regUpdate ((a, b) :: rest) k es) =
      List.lookup n ((a, b) :: rest)
    rw [regUpdate_cons]
    by_cases hak : a = k
    · rw [if_pos hak]
      subst hak
      have hna : (n == a) = false := beq_eq_false_iff_ne.mpr h
      rw [lookup_cons_beq_false n a es _ hna, lookup_cons_beq_false n a b rest hna]
      exact ih
    · rw [if_neg hak]
      cases hna : (n == a) with
      | true =>
        rw [lookup_cons_beq_true n a b _ hna, lookup_cons_beq_true n a b rest hna]
      | false =>
        rw [lookup_cons_beq_false n a b _ hna, lookup_cons_beq_false n a b rest hna]
        exact ih

/-- Helper for C10: both subscription-meta events make `_addOrRemoveEvent`
report that it handled the event. -/
theorem addOrRemoveEvent_meta_handled (es : Events) (event dat : String)
    (hmeta : event = "newListener" ∨ event = "removeListener") :
    (addOrRemoveEvent es event dat).2 = true := by
  rcases hmeta with h | h <;> subst h
  · rfl
  · unfold addOrRemoveEvent
    rw [if_neg (by decide), if_pos rfl]
    by_cases h1 : evGet es dat ≠ 0
    · rw [if_pos h1]
      by_cases h2 : evGet es dat - 1 = 0
      · rw [if_pos h2]
      · rw [if_neg h2]
    · rw [if_neg h1]

/-- C10: a subscription-meta event (`newListener` or `removeListener`) a
connected client sends through the `message` RPC makes the broker mutate
only that client's `events` object and return with no further action: no
re-emission (hence nothing reaches auxiliary transports or the broadcast
intercept), and every other registry entry reads back unchanged. -/
theorem server_message_meta_only_mutates_client_entry
    (reg : Registry) (clientName dat event : String) (es : Events)
    (hmem : regLookup reg clientName = some es)
    (hmeta : event = "newListener" ∨ event = "removeListener") :
    serverMessage reg clientName event dat =
      some (regUpdate reg clientName (addOrRemoveEvent es event dat).1, []) ∧
    ∀ n, n ≠ clientName →
      regLookup (regUpdate reg clientName (addOrRemoveEvent es event dat).1) n =
        regLookup reg n := by
  constructor
  · simp [serverMessage, hmem, addOrRemoveEvent_meta_handled es event dat hmeta]
  · intro n hn
    exact regLookup_regUpdate_ne reg clientName n _ hn

/-- Witness for `server_message_meta_only_mutates_client_entry`: client `c`
reports a new listener on `x`; the broker increments `c`'s count for `x`,
emits nothing, and the entry of the other client `d` is untouched. -/
theorem server_message_meta_only_mutates_client_entry_witness :
    serverMessage [("c", []), ("d", [("y", 1)])] "c" "newListener" "x" =
      some (regUpdate [("c", []), ("d", [("y", 1)])] "c"
        (addOrRemoveEvent [] "newListener" "x").1, []) ∧
    regLookup (regUpdate [("c", []), ("d", [("y", 1)])] "c"
        (addOrRemoveEvent [] "newListener" "x").1) "d" =
      regLookup [("c", []), ("d", [("y", 1)])] "d" :=
  ⟨(server_message_meta_only_mutates_client_entry [("c", []), ("d", [("y", 1)])]
      "c" "x" "newListener" [] rfl (Or.inl rfl)).1,
   (server_message_meta_only_mutates_client_entry [("c", []), ("d", [("y", 1)])]
      "c" "x" "newListener" [] rfl (Or.inl rfl)).2 "d" (by decide)⟩

end HookIO
